import Mathlib

/-!
# tailscale-remote-unlock: unlock orchestration

A shallow embedding of the Go sources `zfs.go`, `ssh.go` and `main.go`.

* Go `error` values are `Option GoError` (`none` is `nil`); sentinel errors that the
  code compares by identity are constructors of `GoError`.
* A Go multiple return `(x, err)` is a pair; a method with side effects on the backend
  threads the backend state explicitly.
* A Go `map[string]bool` is a list of entries with pairwise distinct keys; the order of
  the list is the order in which one `range` loop visits the map.
* `int` counters are `Nat`: they are bounded by the size of a map held in memory.
-/

namespace TailscaleRemoteUnlock

/-! ## Errors -/

/-- Go error values. `EOF` is `io.EOF`, `UnlockedAllVolumes` the sentinel of `zfs.go`,
`ErrServerClosed` is `ssh.ErrServerClosed`, `Canceled` is `context.Canceled`; every other
error is `other` with its message. -/
inductive GoError
  | EOF
  | UnlockedAllVolumes
  | ErrServerClosed
  | Canceled
  | other (text : String)
  deriving DecidableEq, Repr

/-- The `Error()` method. -/
def GoError.Error : GoError → String
  | .EOF => "EOF"
  | .UnlockedAllVolumes => "unlocked all volumes"
  | .ErrServerClosed => "ssh: Server closed"
  | .Canceled => "context canceled"
  | .other text => text

/-! ## The `Unlocker` interface (`zfs.go`) -/

/-- A value of Go type `map[string]bool`: volume name to "is unlocked". -/
structure VolumeMap where
  entries : List (String × Bool)
  nodup : (entries.map Prod.fst).Nodup

/-- The empty map (also the model of a `nil` map). -/
def VolumeMap.empty : VolumeMap := ⟨[], List.nodup_nil⟩

/-- The interface `Unlocker`, over a backend with states `σ`. -/
structure Unlocker (σ : Type) where
  /-- Try and unlock the volume with the given password. -/
  EnterPassword : String → String → σ → (Bool × Option GoError) × σ
  /-- Returns a map of encrypted volumes, and whether they are unlocked or not. -/
  Volumes : σ → (VolumeMap × Option GoError) × σ
  ContinueBoot : σ → Option GoError × σ

/-- The function `EnterPasswordAllVolumes`, body of `for volume, unlocked := range volumes`,
started with the entries still to visit and the current `numUnlocked`. -/
def enterPasswordLoop {σ : Type} (unlocker : Unlocker σ) (password : String) :
    List (String × Bool) → Nat → σ → (Nat × Option GoError) × σ
  | [], numUnlocked, s => ((numUnlocked, none), s)
  | (volume, unlocked) :: rest, numUnlocked, s =>
    if unlocked then
      enterPasswordLoop unlocker password rest numUnlocked s
    else
      match unlocker.EnterPassword volume password s with
      | ((_, some err), s1) => ((numUnlocked, some err), s1)
      | ((v, none), s1) =>
        enterPasswordLoop unlocker password rest (if v then numUnlocked + 1 else numUnlocked) s1

/-- The function `EnterPasswordAllVolumes`. -/
def EnterPasswordAllVolumes {σ : Type} (unlocker : Unlocker σ) (password : String) (s : σ) :
    (Nat × Option GoError) × σ :=
  match unlocker.Volumes s with
  | ((_, some err), s1) => ((0, some err), s1)
  | ((volumes, none), s1) => enterPasswordLoop unlocker password volumes.entries 0 s1

/-! ## Observing the calls made on an `Unlocker` -/

/-- One call on an `Unlocker`, with its arguments and what it returned. -/
inductive Call
  | EnterPassword (volume password : String) (v : Bool) (err : Option GoError)
  | Volumes (volumes : List (String × Bool)) (err : Option GoError)
  | ContinueBoot (err : Option GoError)
  deriving DecidableEq, Repr

/-- The error a call returned. -/
def Call.err : Call → Option GoError
  | .EnterPassword _ _ _ err => err
  | .Volumes _ err => err
  | .ContinueBoot err => err

/-- Whether the call is an `EnterPassword` call. -/
def Call.isEnterPassword : Call → Bool
  | .EnterPassword _ _ _ _ => true
  | _ => false

/-- The volumes of the `EnterPassword` calls of a log, in call order. -/
def enterVolumes : List Call → List String
  | [] => []
  | .EnterPassword volume _ _ _ :: rest => volume :: enterVolumes rest
  | _ :: rest => enterVolumes rest

/-- The volumes for which an `EnterPassword` call of the log returned `(true, nil)`. -/
def unlockedVolumes : List Call → List String
  | [] => []
  | .EnterPassword volume _ true none :: rest => volume :: unlockedVolumes rest
  | _ :: rest => unlockedVolumes rest

/-- The same backend, recording every call in a log kept next to its state. -/
def traced {σ : Type} (unlocker : Unlocker σ) : Unlocker (σ × List Call) where
  EnterPassword volume password st :=
    let r := unlocker.EnterPassword volume password st.1
    (r.1, (r.2, st.2 ++ [Call.EnterPassword volume password r.1.1 r.1.2]))
  Volumes st :=
    let r := unlocker.Volumes st.1
    (r.1, (r.2, st.2 ++ [Call.Volumes r.1.1.entries r.1.2]))
  ContinueBoot st :=
    let r := unlocker.ContinueBoot st.1
    (r.1, (r.2, st.2 ++ [Call.ContinueBoot r.1]))

/-- The volumes a map reports as locked, in iteration order. -/
def lockedVolumes (entries : List (String × Bool)) : List String :=
  (entries.filter (fun e => !e.2)).map Prod.fst

/-! ## `ZFS.tryUnlock` and `ZFS.EnterPassword` (`zfs.go`) -/

/-- What `cmd.Run()` returned for `zfs load-key`: `nil`, an `*exec.ExitError` with its
`ExitCode()` (`-1` when the process was ended by a signal), or any other error (the
command could not be started, copying stdin or stderr failed). -/
inductive RunResult
  | ok
  | exitError (exitCode : Int)
  | failed (err : GoError)
  deriving DecidableEq, Repr

/-- The predicate `unicode.IsSpace`. -/
def isSpace (c : Char) : Bool :=
  let n := c.toNat
  (9 ≤ n && n ≤ 13) || n = 0x20 || n = 0x85 || n = 0xA0 || n = 0x1680 ||
  (0x2000 ≤ n && n ≤ 0x200a) || n = 0x2028 || n = 0x2029 || n = 0x202f ||
  n = 0x205f || n = 0x3000

/-- The function `strings.TrimSpace`, on the characters of a string. -/
def TrimSpace (s : List Char) : List Char :=
  ((s.dropWhile isSpace).reverse.dropWhile isSpace).reverse

/-- The two messages of `zfs load-key` that mean "wrong passphrase". -/
def wrongPassphrase (msg : List Char) : Bool :=
  "Key load error: Passphrase too ".data.isPrefixOf msg ||
  "Key load error: Incorrect key provided for ".data.isPrefixOf msg

/-- The method `ZFS.tryUnlock`, given what running `zfs load-key encRoot` with the
password on stdin returned and wrote to stderr. `Errorf` is `fmt.Errorf` applied to a
format without arguments. -/
def ZFS.tryUnlock (Errorf : String → GoError) (run : RunResult) (stderr : String) :
    Bool × Option GoError :=
  match run with
  | .ok => (true, none)
  | .exitError exitCode =>
    if exitCode > 0 then
      let msg := TrimSpace stderr.data
      if wrongPassphrase msg then
        (false, none)
      else
        (false, some (Errorf (String.mk msg)))
    else
      (true, none)
  | .failed _ => (true, none)

/-- The method `ZFS.EnterPassword`. -/
def ZFS.EnterPassword (Errorf : String → GoError) (run : RunResult) (stderr : String) :
    Bool × Option GoError :=
  match ZFS.tryUnlock Errorf run stderr with
  | (_, some err) => (false, some err)
  | (valid, none) => (valid, none)

/-! ## The session handler of `runSSH` (`ssh.go`) -/

/-- The escape codes `term.Escape` of the terminal library. -/
structure EscapeCodes where
  Green : String
  Red : String
  Reset : String

/-- What a session does on its connection: `write` is one `fmt.Fprintf(term, ...)` or
`io.WriteString(sess, ...)`, `readPassword` one `term.ReadPassword(prompt)`, `exit` is
`sess.Exit(code)`. -/
inductive TermEvent
  | write (text : String)
  | readPassword (prompt : String)
  | exit (code : Nat)
  deriving DecidableEq, Repr

/-- Where the handler of one session stands: at the top of the outer `for` (about to call
`unlocker.Volumes()`), at the top of `PasswordLoop` (about to call `term.ReadPassword`),
or returned. -/
inductive Phase
  | render
  | passwordLoop
  | returned
  deriving DecidableEq, Repr

/-- The handler of one session: its position, what it did on the connection so far, and
how many `ReadPassword` calls it made. -/
structure Session where
  phase : Phase
  out : List TermEvent
  reads : Nat
  deriving DecidableEq, Repr

/-- What the sessions of one `runSSH` share: the backend behind `unlocker`, and the channel
`successC`, kept as the number of times `close(successC)` was executed. The channel is
closed from the first execution on; the second execution is the run-time panic
"close of closed channel", which ends the process. -/
structure Proc (σ : Type) where
  unlocker : σ
  closes : Nat

/-- Whether `successC` is closed, which is what the completion watcher of `runSSH` waits
for. -/
def Proc.successClosed {σ : Type} (p : Proc σ) : Bool := decide (0 < p.closes)

/-- Whether the process died closing the closed channel. -/
def Proc.panicked {σ : Type} (p : Proc σ) : Bool := decide (1 < p.closes)

/-- The statement `close(successC)`. -/
def closeSuccessC {σ : Type} (p : Proc σ) : Proc σ :=
  { p with closes := p.closes + 1 }

/-- The loop `for v, unlocked := range volumes` of the handler: collects the names and
counts the locked volumes. -/
def countLocked : List (String × Bool) → List String → Nat → List String × Nat
  | [], vs, numLocked => (vs, numLocked)
  | (v, unlocked) :: rest, vs, numLocked =>
    countLocked rest (vs ++ [v]) (if !unlocked then numLocked + 1 else numLocked)

/-- The map lookup `volumes[v]` (the zero value `false` for a missing key). -/
def VolumeMap.get (volumes : VolumeMap) (v : String) : Bool :=
  match volumes.entries.find? (fun e => e.1 = v) with
  | some e => e.2
  | none => false

/-- The message written for an empty or a wrong password. -/
def invalidPassword (E : EscapeCodes) : TermEvent :=
  .write (E.Red ++ "Invalid password. Please try again." ++ E.Reset ++ "\n")

/-- The message written when no volume is locked. -/
def allUnlocked (E : EscapeCodes) : TermEvent :=
  .write (E.Green ++ "\n✓ All volumes are unlocked." ++ E.Reset ++ "\n")

/-- The status line of one volume. -/
def statusLine (E : EscapeCodes) (volumes : VolumeMap) (v : String) : TermEvent :=
  if volumes.get v then
    .write (E.Green ++ "⬤ " ++ E.Reset ++ " " ++ v ++ "\n")
  else
    .write (E.Red ++ "⬤ " ++ E.Reset ++ " " ++ v ++ "\n")

/-- One iteration of the outer `for` of the handler up to `PasswordLoop` (lines 37-73). -/
def renderStep {σ : Type} (E : EscapeCodes) (unlocker : Unlocker σ)
    (p : Proc σ) (sess : Session) : Proc σ × Session :=
  match unlocker.Volumes p.unlocker with
  | ((_, some err), s1) =>
    ({ p with unlocker := s1 },
     { sess with
       out := sess.out ++ [.write ("Error getting encrypted volumes: " ++ err.Error ++ "\n")],
       phase := .returned })
  | ((volumes, none), s1) =>
    let (vs, numLocked) := countLocked volumes.entries [] 0
    if numLocked = 0 then
      (closeSuccessC { p with unlocker := s1 },
       { sess with out := sess.out ++ [allUnlocked E], phase := .returned })
    else
      ({ p with unlocker := s1 },
       { sess with
         out := sess.out ++ [.write "\n"] ++
           (vs.insertionSort (fun a b => a ≤ b)).map (statusLine E volumes) ++ [.write "\n"],
         phase := .passwordLoop })

/-- One iteration of `PasswordLoop` (lines 77-99); `input n` is what the `n`-th call of
`term.ReadPassword` of this session returns. -/
def passwordStep {σ : Type} (E : EscapeCodes) (unlocker : Unlocker σ)
    (input : Nat → String × Option GoError) (p : Proc σ) (sess : Session) :
    Proc σ × Session :=
  let (password, err) := input sess.reads
  let sess1 : Session :=
    { sess with out := sess.out ++ [.readPassword "Password: "], reads := sess.reads + 1 }
  if err = some GoError.EOF then
    (p, { sess1 with out := sess1.out ++ [.write "\n"], phase := .returned })
  else if password = "" then
    (p, { sess1 with out := sess1.out ++ [invalidPassword E] })
  else
    match EnterPasswordAllVolumes unlocker password p.unlocker with
    | ((_, some err), s1) =>
      ({ p with unlocker := s1 },
       { sess1 with
         out := sess1.out ++ [.write (E.Red ++ "Error: " ++ err.Error ++ E.Reset ++ "\n")] })
    | ((numUnlocked, none), s1) =>
      if numUnlocked > 0 then
        ({ p with unlocker := s1 },
         { sess1 with
           out := sess1.out ++
             [.write (E.Green ++ "Unlocked " ++ toString numUnlocked ++ " volumes." ++
               E.Reset ++ "\n")],
           phase := .render })
      else
        ({ p with unlocker := s1 }, { sess1 with out := sess1.out ++ [invalidPassword E] })

/-- The handler when a session starts: `isPty` is the third result of `sess.Pty()`. -/
def handlerStart (isPty : Bool) : Session :=
  if isPty then
    { phase := .render, out := [.write "🔑 Welcome to tailscale-remote-unlock!\n"], reads := 0 }
  else
    { phase := .returned, out := [.write "No PTY requested.\n", .exit 1], reads := 0 }

/-- One step of the handler of a session. -/
def handlerStep {σ : Type} (E : EscapeCodes) (unlocker : Unlocker σ)
    (input : Nat → String × Option GoError) (p : Proc σ) (sess : Session) :
    Proc σ × Session :=
  match sess.phase with
  | .render => renderStep E unlocker p sess
  | .passwordLoop => passwordStep E unlocker input p sess
  | .returned => (p, sess)

/-- The handler run for `n` steps. -/
def handlerSteps {σ : Type} (E : EscapeCodes) (unlocker : Unlocker σ)
    (input : Nat → String × Option GoError) : Nat → Proc σ × Session → Proc σ × Session
  | 0, st => st
  | n + 1, st => handlerSteps E unlocker input n (handlerStep E unlocker input st.1 st.2)

/-! ## Concurrent sessions of one `runSSH` -/

/-- The sessions being served and what they share. -/
structure World (σ : Type) where
  proc : Proc σ
  sessions : List Session

/-- The handler of session `i` takes one step; nothing runs once the process panicked.
`inputs i` is the input of session `i`. -/
def worldStep {σ : Type} (E : EscapeCodes) (unlocker : Unlocker σ)
    (inputs : Nat → Nat → String × Option GoError) (i : Nat) (w : World σ) : World σ :=
  if w.proc.panicked then w
  else
    match w.sessions[i]? with
    | none => w
    | some sess =>
      let r := handlerStep E unlocker (inputs i) w.proc sess
      { proc := r.1, sessions := w.sessions.set i r.2 }

/-- An interleaving: the sessions named by the schedule step one after the other. -/
def runSchedule {σ : Type} (E : EscapeCodes) (unlocker : Unlocker σ)
    (inputs : Nat → Nat → String × Option GoError) : List Nat → World σ → World σ
  | [], w => w
  | i :: rest, w => runSchedule E unlocker inputs rest (worldStep E unlocker inputs i w)

/-- The state of `runSSH` when `n` sessions with a terminal have been accepted. -/
def initialWorld {σ : Type} (s : σ) (n : Nat) : World σ :=
  { proc := { unlocker := s, closes := 0 },
    sessions := List.replicate n (handlerStart true) }

/-! ## `startServer` (`main.go`) -/

/-- The function `startServer`: `startErr` is what `ts.Start()` returned, `clientErr` the
error of `ts.LocalClient()`, and `group` the run of the task group up to the return of
`errgrp.Wait()`, with its result and its effect on the backend. -/
def startServer {σ : Type} (unlocker : Unlocker σ) (startErr clientErr : Option GoError)
    (group : σ → Option GoError × σ) (s : σ) : Option GoError × σ :=
  match startErr with
  | some err => (some err, s)
  | none =>
    match clientErr with
    | some err => (some err, s)
    | none =>
      let (err, s1) := group s
      if err ≠ some GoError.UnlockedAllVolumes then
        (err, s1)
      else
        unlocker.ContinueBoot s1

/-! ## Backends used as concrete inputs -/

/-- A backend without state: `Volumes` always returns `volumes`, `EnterPassword` answers
by `answer`, `ContinueBoot` returns `boot`. -/
def fixedUnlocker (volumes : VolumeMap) (answer : String → String → Bool × Option GoError)
    (boot : Option GoError) : Unlocker Unit where
  EnterPassword volume password _ := (answer volume password, ())
  Volumes _ := ((volumes, none), ())
  ContinueBoot _ := (boot, ())

/-- The map with volume `A` locked and volume `B` unlocked. -/
def volumesAB : VolumeMap := ⟨[("A", false), ("B", true)], by decide⟩

/-- The map with volumes `A` and `B` both locked. -/
def volumesLocked : VolumeMap := ⟨[("A", false), ("B", false)], by decide⟩

/-- The escape codes of a VT100 terminal. -/
def vt100 : EscapeCodes := { Green := "\x1b[32m", Red := "\x1b[31m", Reset := "\x1b[0m" }

/-- The calls `EnterPasswordAllVolumes` makes on the backend, in order. -/
def callsOf {σ : Type} (U : Unlocker σ) (password : String) (s : σ) : List Call :=
  (EnterPasswordAllVolumes (traced U) password (s, [])).2.2

/-! ## Lemmas on logs -/

theorem enterVolumes_append (l₁ l₂ : List Call) :
    enterVolumes (l₁ ++ l₂) = enterVolumes l₁ ++ enterVolumes l₂ := by
  induction l₁ with
  | nil => rfl
  | cons c rest ih => cases c <;> simp [enterVolumes, ih]

theorem unlockedVolumes_append (l₁ l₂ : List Call) :
    unlockedVolumes (l₁ ++ l₂) = unlockedVolumes l₁ ++ unlockedVolumes l₂ := by
  induction l₁ with
  | nil => rfl
  | cons c rest ih =>
    cases c with
    | EnterPassword volume password v err =>
      cases v <;> cases err <;> simp [unlockedVolumes, ih]
    | Volumes volumes err => simp [unlockedVolumes, ih]
    | ContinueBoot err => simp [unlockedVolumes, ih]

theorem unlockedVolumes_sublist (l : List Call) :
    (unlockedVolumes l).Sublist (enterVolumes l) := by
  induction l with
  | nil => exact List.Sublist.slnil
  | cons c rest ih =>
    cases c with
    | EnterPassword volume password v err =>
      cases v <;> cases err <;> simp [unlockedVolumes, enterVolumes, ih]
    | Volumes volumes err => simpa [unlockedVolumes, enterVolumes] using ih
    | ContinueBoot err => simpa [unlockedVolumes, enterVolumes] using ih

theorem lockedVolumes_nodup (volumes : VolumeMap) : (lockedVolumes volumes.entries).Nodup := by
  unfold lockedVolumes
  exact List.Nodup.sublist (List.Sublist.map _ (List.filter_sublist _)) volumes.nodup

theorem mem_lockedVolumes {entries : List (String × Bool)} {v : String} :
    v ∈ lockedVolumes entries ↔ (v, false) ∈ entries := by
  simp [lockedVolumes]

theorem traced_EnterPassword {σ : Type} (U : Unlocker σ) (volume password : String)
    (s : σ) (log : List Call) :
    (traced U).EnterPassword volume password (s, log) =
      ((U.EnterPassword volume password s).1,
       ((U.EnterPassword volume password s).2,
        log ++ [Call.EnterPassword volume password (U.EnterPassword volume password s).1.1
          (U.EnterPassword volume password s).1.2])) := rfl

theorem traced_Volumes {σ : Type} (U : Unlocker σ) (s : σ) (log : List Call) :
    (traced U).Volumes (s, log) =
      ((U.Volumes s).1, ((U.Volumes s).2,
        log ++ [Call.Volumes (U.Volumes s).1.1.entries (U.Volumes s).1.2])) := rfl

theorem traced_ContinueBoot {σ : Type} (U : Unlocker σ) (s : σ) (log : List Call) :
    (traced U).ContinueBoot (s, log) =
      ((U.ContinueBoot s).1, ((U.ContinueBoot s).2,
        log ++ [Call.ContinueBoot (U.ContinueBoot s).1])) := rfl

/-- What the loop of `EnterPasswordAllVolumes` adds to the log. -/
theorem enterPasswordLoop_traced {σ : Type} (U : Unlocker σ) (password : String) :
    ∀ (entries : List (String × Bool)) (n : Nat) (s : σ) (log : List Call),
      ∃ calls : List Call,
        (enterPasswordLoop (traced U) password entries n (s, log)).2.2 = log ++ calls ∧
        (∀ c ∈ calls, c.isEnterPassword = true) ∧
        enterVolumes calls <+: lockedVolumes entries ∧
        (enterPasswordLoop (traced U) password entries n (s, log)).1.1 =
          n + (unlockedVolumes calls).length ∧
        ((enterPasswordLoop (traced U) password entries n (s, log)).1.2 = none →
          enterVolumes calls = lockedVolumes entries ∧ ∀ c ∈ calls, c.err = none) ∧
        (∀ e, (enterPasswordLoop (traced U) password entries n (s, log)).1.2 = some e →
          ∃ init volume v, calls = init ++ [Call.EnterPassword volume password v (some e)] ∧
            ∀ c ∈ init, c.err = none) := by
  intro entries
  induction entries with
  | nil =>
    intro n s log
    exact ⟨[], by simp [enterPasswordLoop], by simp, by simp [enterVolumes, lockedVolumes],
      by simp [enterPasswordLoop, unlockedVolumes], by simp [enterVolumes, lockedVolumes],
      by simp [enterPasswordLoop]⟩
  | cons hd tl ih =>
    intro n s log
    obtain ⟨volume, unlocked⟩ := hd
    cases unlocked with
    | true =>
      obtain ⟨calls, h1, h2, h3, h4, h5, h6⟩ := ih n s log
      refine ⟨calls, ?_, h2, ?_, ?_, ?_, ?_⟩
      · simpa [enterPasswordLoop] using h1
      · simpa [lockedVolumes] using h3
      · simpa [enterPasswordLoop] using h4
      · simpa [enterPasswordLoop, lockedVolumes] using h5
      · simpa [enterPasswordLoop] using h6
    | false =>
      rcases hU : U.EnterPassword volume password s with ⟨⟨v, err⟩, s1⟩
      cases err with
      | some e =>
        refine ⟨[Call.EnterPassword volume password v (some e)], ?_, ?_, ?_, ?_, ?_, ?_⟩
        · simp [enterPasswordLoop, traced_EnterPassword, hU]
        · simp [Call.isEnterPassword]
        · simp [enterVolumes, lockedVolumes]
        · cases v <;> simp [enterPasswordLoop, traced_EnterPassword, hU, unlockedVolumes]
        · simp [enterPasswordLoop, traced_EnterPassword, hU]
        · intro e1 he1
          refine ⟨[], volume, v, ?_, by simp⟩
          simp [enterPasswordLoop, traced_EnterPassword, hU] at he1
          simp [he1]
      | none =>
        obtain ⟨calls, h1, h2, h3, h4, h5, h6⟩ :=
          ih (if v then n + 1 else n) s1 (log ++ [Call.EnterPassword volume password v none])
        refine ⟨Call.EnterPassword volume password v none :: calls, ?_, ?_, ?_, ?_, ?_, ?_⟩
        · simpa [enterPasswordLoop, traced_EnterPassword, hU] using h1
        · intro c hc
          rcases List.mem_cons.mp hc with rfl | hc
          · rfl
          · exact h2 c hc
        · simpa [enterVolumes, lockedVolumes] using h3
        · simp only [enterPasswordLoop, traced_EnterPassword, hU]
          simp only [Bool.false_eq_true, if_false]
          rw [h4]
          cases v <;> simp [unlockedVolumes]; omega
        · intro hnone
          simp only [enterPasswordLoop, traced_EnterPassword, hU, Bool.false_eq_true,
            if_false] at hnone
          obtain ⟨h5a, h5b⟩ := h5 hnone
          refine ⟨by simpa [enterVolumes, lockedVolumes] using h5a, ?_⟩
          intro c hc
          rcases List.mem_cons.mp hc with rfl | hc
          · rfl
          · exact h5b c hc
        · intro e he
          simp only [enterPasswordLoop, traced_EnterPassword, hU, Bool.false_eq_true,
            if_false] at he
          obtain ⟨init, volume1, v1, hc, hinit⟩ := h6 e he
          refine ⟨Call.EnterPassword volume password v none :: init, volume1, v1, ?_, ?_⟩
          · simp [hc]
          · intro c hc
            rcases List.mem_cons.mp hc with rfl | hc
            · rfl
            · exact hinit c hc

/-- Recording the calls changes neither the result nor the final state of the loop. -/
theorem enterPasswordLoop_traced_fst {σ : Type} (U : Unlocker σ) (password : String) :
    ∀ (entries : List (String × Bool)) (n : Nat) (s : σ) (log : List Call),
      (enterPasswordLoop (traced U) password entries n (s, log)).1 =
        (enterPasswordLoop U password entries n s).1 ∧
      (enterPasswordLoop (traced U) password entries n (s, log)).2.1 =
        (enterPasswordLoop U password entries n s).2 := by
  intro entries
  induction entries with
  | nil => intro n s log; simp [enterPasswordLoop]
  | cons hd tl ih =>
    intro n s log
    obtain ⟨volume, unlocked⟩ := hd
    cases unlocked with
    | true => simpa [enterPasswordLoop] using ih n s log
    | false =>
      rcases hU : U.EnterPassword volume password s with ⟨⟨v, err⟩, s1⟩
      cases err with
      | some e => simp [enterPasswordLoop, traced_EnterPassword, hU]
      | none =>
        simpa [enterPasswordLoop, traced_EnterPassword, hU] using
          ih (if v then n + 1 else n) s1 (log ++ [Call.EnterPassword volume password v none])

/-- Recording the calls changes neither the result nor the final state of
`EnterPasswordAllVolumes`. -/
theorem EnterPasswordAllVolumes_traced_fst {σ : Type} (U : Unlocker σ) (password : String)
    (s : σ) (log : List Call) :
    (EnterPasswordAllVolumes (traced U) password (s, log)).1 =
        (EnterPasswordAllVolumes U password s).1 ∧
      (EnterPasswordAllVolumes (traced U) password (s, log)).2.1 =
        (EnterPasswordAllVolumes U password s).2 := by
  rcases hV : U.Volumes s with ⟨⟨volumes, err⟩, s1⟩
  cases err with
  | some e => simp [EnterPasswordAllVolumes, traced_Volumes, hV]
  | none =>
    simpa [EnterPasswordAllVolumes, traced_Volumes, hV] using
      enterPasswordLoop_traced_fst U password volumes.entries 0 s1
        (log ++ [Call.Volumes volumes.entries none])

/-- The calls of `EnterPasswordAllVolumes` when `Volumes` fails. -/
theorem callsOf_of_Volumes_err {σ : Type} (U : Unlocker σ) (password : String) (s : σ)
    (e : GoError) (h : (U.Volumes s).1.2 = some e) :
    callsOf U password s = [Call.Volumes (U.Volumes s).1.1.entries (some e)] ∧
      (EnterPasswordAllVolumes U password s).1 = (0, some e) := by
  rcases hV : U.Volumes s with ⟨⟨volumes, err⟩, s1⟩
  rw [hV] at h
  simp only at h
  subst h
  simp [callsOf, EnterPasswordAllVolumes, traced_Volumes, hV]

/-- The calls of `EnterPasswordAllVolumes` when `Volumes` succeeds. -/
theorem callsOf_of_Volumes_ok {σ : Type} (U : Unlocker σ) (password : String) (s : σ)
    (h : (U.Volumes s).1.2 = none) :
    ∃ calls : List Call,
      callsOf U password s = Call.Volumes (U.Volumes s).1.1.entries none :: calls ∧
      (∀ c ∈ calls, c.isEnterPassword = true) ∧
      enterVolumes calls <+: lockedVolumes (U.Volumes s).1.1.entries ∧
      (EnterPasswordAllVolumes U password s).1.1 = (unlockedVolumes calls).length ∧
      ((EnterPasswordAllVolumes U password s).1.2 = none →
        enterVolumes calls = lockedVolumes (U.Volumes s).1.1.entries ∧
          ∀ c ∈ calls, c.err = none) ∧
      (∀ e, (EnterPasswordAllVolumes U password s).1.2 = some e →
        ∃ init volume v, calls = init ++ [Call.EnterPassword volume password v (some e)] ∧
          ∀ c ∈ init, c.err = none) := by
  rcases hV : U.Volumes s with ⟨⟨volumes, err⟩, s1⟩
  rw [hV] at h
  simp only at h
  subst h
  obtain ⟨calls, h1, h2, h3, h4, h5, h6⟩ :=
    enterPasswordLoop_traced U password volumes.entries 0 s1 [Call.Volumes volumes.entries none]
  have hfst := (enterPasswordLoop_traced_fst U password volumes.entries 0 s1
    [Call.Volumes volumes.entries none]).1
  rw [hfst] at h4 h5 h6
  refine ⟨calls, ?_, h2, h3, ?_, ?_, ?_⟩
  · simpa [callsOf, EnterPasswordAllVolumes, traced_Volumes, hV] using h1
  · simpa [EnterPasswordAllVolumes, hV] using h4
  · simpa [EnterPasswordAllVolumes, hV] using h5
  · simpa [EnterPasswordAllVolumes, hV] using h6

/-- Two entries of a map with the same key are the same entry. -/
theorem VolumeMap.unique (volumes : VolumeMap) {v : String} {a b : Bool}
    (ha : (v, a) ∈ volumes.entries) (hb : (v, b) ∈ volumes.entries) : a = b := by
  have h := List.inj_on_of_nodup_map volumes.nodup ha hb rfl
  exact (Prod.mk.inj h).2

/-! ## The bulk unlock operation -/

/-- C2: `EnterPasswordAllVolumes` takes its snapshot with one `Volumes()` call at the start
and makes only `EnterPassword` calls after it; every volume it calls `EnterPassword` on is
reported locked by that snapshot, no volume the snapshot reports unlocked is ever attempted,
and no volume is attempted twice. -/
theorem EnterPasswordAllVolumes_only_locked_once {σ : Type} (U : Unlocker σ)
    (password : String) (s : σ) :
    (∃ calls : List Call,
      callsOf U password s =
        Call.Volumes (U.Volumes s).1.1.entries (U.Volumes s).1.2 :: calls ∧
      ∀ c ∈ calls, c.isEnterPassword = true) ∧
    (∀ volume ∈ enterVolumes (callsOf U password s),
      (volume, false) ∈ (U.Volumes s).1.1.entries) ∧
    (∀ volume, (volume, true) ∈ (U.Volumes s).1.1.entries →
      volume ∉ enterVolumes (callsOf U password s)) ∧
    (enterVolumes (callsOf U password s)).Nodup := by
  have key : (∃ calls : List Call,
      callsOf U password s =
        Call.Volumes (U.Volumes s).1.1.entries (U.Volumes s).1.2 :: calls ∧
      ∀ c ∈ calls, c.isEnterPassword = true) ∧
      enterVolumes (callsOf U password s) <+: lockedVolumes (U.Volumes s).1.1.entries := by
    cases hV : (U.Volumes s).1.2 with
    | some e =>
      obtain ⟨hc, _⟩ := callsOf_of_Volumes_err U password s e hV
      rw [hc]
      exact ⟨⟨[], rfl, by simp⟩, by simp [enterVolumes]⟩
    | none =>
      obtain ⟨calls, hc, h2, h3, _⟩ := callsOf_of_Volumes_ok U password s hV
      rw [hc]
      exact ⟨⟨calls, rfl, h2⟩, by simpa [enterVolumes] using h3⟩
  obtain ⟨hshape, hpre⟩ := key
  have hlocked : ∀ volume ∈ enterVolumes (callsOf U password s),
      (volume, false) ∈ (U.Volumes s).1.1.entries := fun volume hv =>
    mem_lockedVolumes.mp (hpre.subset hv)
  refine ⟨hshape, hlocked, ?_, ?_⟩
  · intro volume htrue hmem
    exact absurd ((U.Volumes s).1.1.unique htrue (hlocked volume hmem)) (by decide)
  · exact List.Nodup.sublist hpre.sublist (lockedVolumes_nodup _)

/-- C3: when no call `EnterPasswordAllVolumes` makes returns an error, it returns a nil
error, it attempts exactly the volumes the snapshot reports locked, the count it returns is
the number of distinct volumes for which `EnterPassword` returned true, each of them locked
in the snapshot, and the count is at most the number of volumes locked in the snapshot. -/
theorem EnterPasswordAllVolumes_count {σ : Type} (U : Unlocker σ) (password : String) (s : σ)
    (h : ∀ c ∈ callsOf U password s, c.err = none) :
    (EnterPasswordAllVolumes U password s).1.2 = none ∧
    enterVolumes (callsOf U password s) = lockedVolumes (U.Volumes s).1.1.entries ∧
    (EnterPasswordAllVolumes U password s).1.1 =
      (unlockedVolumes (callsOf U password s)).toFinset.card ∧
    (∀ volume ∈ unlockedVolumes (callsOf U password s),
      (volume, false) ∈ (U.Volumes s).1.1.entries) ∧
    (EnterPasswordAllVolumes U password s).1.1 ≤
      (lockedVolumes (U.Volumes s).1.1.entries).length := by
  have hV : (U.Volumes s).1.2 = none := by
    cases hV : (U.Volumes s).1.2 with
    | none => rfl
    | some e =>
      have hc := (callsOf_of_Volumes_err U password s e hV).1
      have := h (Call.Volumes (U.Volumes s).1.1.entries (some e)) (by rw [hc]; simp)
      simp [Call.err] at this
  obtain ⟨calls, hc, _, h3, h4, h5, h6⟩ := callsOf_of_Volumes_ok U password s hV
  have hnone : (EnterPasswordAllVolumes U password s).1.2 = none := by
    cases hr : (EnterPasswordAllVolumes U password s).1.2 with
    | none => rfl
    | some e =>
      obtain ⟨init, volume, v, hcalls, _⟩ := h6 e hr
      have := h (Call.EnterPassword volume password v (some e)) (by rw [hc, hcalls]; simp)
      simp [Call.err] at this
  obtain ⟨hall, _⟩ := h5 hnone
  have hunl : unlockedVolumes (callsOf U password s) = unlockedVolumes calls := by
    rw [hc]; simp [unlockedVolumes]
  have hent : enterVolumes (callsOf U password s) = enterVolumes calls := by
    rw [hc]; simp [enterVolumes]
  have hsub : (unlockedVolumes calls).Sublist (lockedVolumes (U.Volumes s).1.1.entries) := by
    rw [← hall]; exact unlockedVolumes_sublist calls
  have hnd : (unlockedVolumes calls).Nodup :=
    List.Nodup.sublist hsub (lockedVolumes_nodup _)
  refine ⟨hnone, by rw [hent, hall], ?_, ?_, ?_⟩
  · rw [hunl, List.toFinset_card_of_nodup hnd]; exact h4
  · intro volume hv
    rw [hunl] at hv
    exact mem_lockedVolumes.mp (hsub.subset hv)
  · rw [h4]; exact hsub.length_le

/-- C3 at a concrete input: volume `A` locked, volume `B` unlocked, every password
accepted. -/
theorem EnterPasswordAllVolumes_count_witness :
    (∀ c ∈ callsOf (fixedUnlocker volumesAB (fun _ _ => (true, none)) none) "hunter2" (),
      c.err = none) ∧
    (EnterPasswordAllVolumes (fixedUnlocker volumesAB (fun _ _ => (true, none)) none)
      "hunter2" ()).1 = (1, none) ∧
    (EnterPasswordAllVolumes (fixedUnlocker volumesAB (fun _ _ => (true, none)) none)
      "hunter2" ()).1.1 ≤ (lockedVolumes (((fixedUnlocker volumesAB (fun _ _ => (true, none))
        none).Volumes ()).1.1.entries)).length :=
  ⟨by decide, by decide,
    (EnterPasswordAllVolumes_count (fixedUnlocker volumesAB (fun _ _ => (true, none)) none)
      "hunter2" () (by decide)).2.2.2.2⟩

/-- The calls of `EnterPasswordAllVolumes` are either all without error, with a nil result
error, or end in the one call that returned the result error. -/
theorem callsOf_cases {σ : Type} (U : Unlocker σ) (password : String) (s : σ) :
    ((EnterPasswordAllVolumes U password s).1.2 = none ∧
      (∀ c ∈ callsOf U password s, c.err = none)) ∨
    (∃ e init last, (EnterPasswordAllVolumes U password s).1.2 = some e ∧
      callsOf U password s = init ++ [last] ∧ last.err = some e ∧
      (∀ c ∈ init, c.err = none) ∧
      (EnterPasswordAllVolumes U password s).1.1 = (unlockedVolumes init).length) := by
  cases hV : (U.Volumes s).1.2 with
  | some e =>
    obtain ⟨hc, hr⟩ := callsOf_of_Volumes_err U password s e hV
    refine Or.inr ⟨e, [], Call.Volumes (U.Volumes s).1.1.entries (some e), ?_, ?_, rfl, ?_, ?_⟩
    · rw [hr]
    · rw [hc]; rfl
    · simp
    · rw [hr]; rfl
  | none =>
    obtain ⟨calls, hc, _, _, h4, h5, h6⟩ := callsOf_of_Volumes_ok U password s hV
    cases hr : (EnterPasswordAllVolumes U password s).1.2 with
    | none =>
      refine Or.inl ⟨rfl, ?_⟩
      intro c hmem
      rw [hc] at hmem
      rcases List.mem_cons.mp hmem with rfl | hmem
      · rfl
      · exact (h5 hr).2 c hmem
    | some e =>
      obtain ⟨init, volume, v, hcalls, hinit⟩ := h6 e hr
      refine Or.inr ⟨e, Call.Volumes (U.Volumes s).1.1.entries none :: init,
        Call.EnterPassword volume password v (some e), rfl, ?_, rfl, ?_, ?_⟩
      · rw [hc, hcalls]; rfl
      · intro c hmem
        rcases List.mem_cons.mp hmem with rfl | hmem
        · rfl
        · exact hinit c hmem
      · rw [h4, hcalls, unlockedVolumes_append]
        simp [unlockedVolumes]

/-- C4: `EnterPasswordAllVolumes` aborts on the first error and returns it. If `Volumes()`
returns an error, that error is returned with count 0 and `Volumes()` is the only call made.
Whenever a call returns an error, it is the last call made, the operation returns exactly
that error, and the count is the number of `(true, nil)` results before it. The returned
error is nil exactly when no call returned an error. -/
theorem EnterPasswordAllVolumes_aborts_on_error {σ : Type} (U : Unlocker σ)
    (password : String) (s : σ) :
    (∀ e, (U.Volumes s).1.2 = some e →
      (EnterPasswordAllVolumes U password s).1 = (0, some e) ∧
      callsOf U password s = [Call.Volumes (U.Volumes s).1.1.entries (some e)]) ∧
    (∀ init c rest e, callsOf U password s = init ++ c :: rest → c.err = some e →
      rest = [] ∧
      (EnterPasswordAllVolumes U password s).1 = ((unlockedVolumes init).length, some e)) ∧
    ((EnterPasswordAllVolumes U password s).1.2 = none ↔
      ∀ c ∈ callsOf U password s, c.err = none) := by
  refine ⟨?_, ?_, ?_⟩
  · intro e hV
    obtain ⟨hc, hr⟩ := callsOf_of_Volumes_err U password s e hV
    exact ⟨hr, hc⟩
  · intro init c rest e hsplit hcerr
    rcases callsOf_cases U password s with ⟨_, hall⟩ | ⟨e0, init0, last, hr, hc, hlast, hinit, hn⟩
    · have := hall c (by rw [hsplit]; simp)
      rw [this] at hcerr
      exact absurd hcerr (by simp)
    · rw [hc] at hsplit
      have hrest : rest = [] := by
        rcases List.eq_nil_or_concat rest with hnil | ⟨rest1, z, hz⟩
        · exact hnil
        · exfalso
          rw [hz, List.concat_eq_append, ← List.cons_append, ← List.append_assoc] at hsplit
          have hi := (List.append_inj' hsplit rfl).1
          have := hinit c (by rw [hi]; simp)
          rw [this] at hcerr
          exact absurd hcerr (by simp)
      subst hrest
      have h1 := List.append_inj' hsplit rfl
      have hinit_eq : init0 = init := h1.1
      have hlast_eq : last = c := by simpa using h1.2
      subst hinit_eq
      subst hlast_eq
      rw [hlast] at hcerr
      have he : e0 = e := Option.some.inj hcerr
      subst he
      refine ⟨rfl, ?_⟩
      exact Prod.ext hn hr
  · constructor
    · intro hnone
      rcases callsOf_cases U password s with ⟨_, hall⟩ | ⟨e0, _, _, hr, _⟩
      · exact hall
      · rw [hr] at hnone
        exact absurd hnone (by simp)
    · intro hall
      rcases callsOf_cases U password s with ⟨hnone, _⟩ | ⟨e0, init0, last, _, hc, hlast, _⟩
      · exact hnone
      · have := hall last (by rw [hc]; simp)
        rw [this] at hlast
        exact absurd hlast (by simp)

/-- C4 at a concrete input: volumes `A` and `B` locked, `A` accepts the password and `B`
fails; the error of `B` is returned with count 1. -/
theorem EnterPasswordAllVolumes_aborts_on_error_witness :
    callsOf (fixedUnlocker volumesLocked
        (fun volume _ => if volume = "A" then (true, none) else (false, some (.other "busy")))
        none) "hunter2" () =
      [Call.Volumes volumesLocked.entries none, Call.EnterPassword "A" "hunter2" true none] ++
        Call.EnterPassword "B" "hunter2" false (some (.other "busy")) :: [] ∧
    (EnterPasswordAllVolumes (fixedUnlocker volumesLocked
        (fun volume _ => if volume = "A" then (true, none) else (false, some (.other "busy")))
        none) "hunter2" ()).1 = (1, some (.other "busy")) :=
  ⟨by decide,
    ((EnterPasswordAllVolumes_aborts_on_error (fixedUnlocker volumesLocked
        (fun volume _ => if volume = "A" then (true, none) else (false, some (.other "busy")))
        none) "hunter2" ()).2.1
      [Call.Volumes volumesLocked.entries none, Call.EnterPassword "A" "hunter2" true none]
      (Call.EnterPassword "B" "hunter2" false (some (.other "busy"))) []
      (.other "busy") (by decide) rfl).2⟩

/-! ## `ZFS.EnterPassword` -/

/-- The result `(false, nil)` of `ZFS.EnterPassword` means exactly: the command exited with a
positive exit code and its trimmed stderr starts with one of the two wrong-passphrase
messages. -/
theorem ZFS_EnterPassword_false_nil_iff (Errorf : String → GoError) (run : RunResult)
    (stderr : String) :
    ZFS.EnterPassword Errorf run stderr = (false, none) ↔
      ∃ exitCode : Int, run = .exitError exitCode ∧ exitCode > 0 ∧
        wrongPassphrase (TrimSpace stderr.data) = true := by
  cases run with
  | ok => simp [ZFS.EnterPassword, ZFS.tryUnlock]
  | failed err => simp [ZFS.EnterPassword, ZFS.tryUnlock]
  | exitError exitCode =>
    by_cases hpos : exitCode > 0
    · by_cases hmsg : wrongPassphrase (TrimSpace stderr.data) = true
      · simp [ZFS.EnterPassword, ZFS.tryUnlock, hpos, hmsg]
      · simp [ZFS.EnterPassword, ZFS.tryUnlock, hpos, hmsg]
    · simp [ZFS.EnterPassword, ZFS.tryUnlock, hpos]

/-- A positive exit code with any other stderr is returned as an error with result false. -/
theorem ZFS_EnterPassword_other_stderr (Errorf : String → GoError) (exitCode : Int)
    (stderr : String) (hpos : exitCode > 0)
    (hmsg : wrongPassphrase (TrimSpace stderr.data) = false) :
    ZFS.EnterPassword Errorf (.exitError exitCode) stderr =
      (false, some (Errorf (String.mk (TrimSpace stderr.data)))) := by
  simp [ZFS.EnterPassword, ZFS.tryUnlock, hpos, hmsg]

/-- The wrong-password case of `TestZFS`: `zfs load-key` exits with a positive code and
the incorrect-key message. -/
theorem ZFS_EnterPassword_wrong_password :
    ZFS.EnterPassword GoError.other (.exitError 255)
      "Key load error: Incorrect key provided for 'tsru-test-dozer'.\n" = (false, none) := by
  decide

/-- C5, the code at the failing inputs: when `zfs load-key` could not be started, and when
it was ended by a signal (exit code `-1`), `ZFS.EnterPassword` returns `(true, nil)`, the
result of a successful unlock, and no error. -/
theorem ZFS_EnterPassword_true_on_failure :
    ZFS.EnterPassword GoError.other
        (.failed (.other "fork/exec /sbin/zfs: no such file or directory")) "" =
      (true, none) ∧
    ZFS.EnterPassword GoError.other (.exitError (-1)) "" = (true, none) ∧
    (∀ (Errorf : String → GoError) (err : GoError) (stderr : String),
      ZFS.EnterPassword Errorf (.failed err) stderr = (true, none)) ∧
    (∀ (Errorf : String → GoError) (exitCode : Int) (stderr : String), exitCode ≤ 0 →
      ZFS.EnterPassword Errorf (.exitError exitCode) stderr = (true, none)) := by
  refine ⟨rfl, by decide, fun _ _ _ => rfl, ?_⟩
  intro Errorf exitCode stderr hle
  have : ¬ exitCode > 0 := by omega
  simp [ZFS.EnterPassword, ZFS.tryUnlock, this]

/-! ## `startServer` -/

/-- C9: once `ts.Start()` and `ts.LocalClient()` succeeded and the task group finished, if
the group returned `UnlockedAllVolumes` then `startServer` makes exactly one call on the
backend, `ContinueBoot`, after the group, and returns its result; for every other result
of the group it returns that result and leaves the backend as the group left it, without
any call. -/
theorem startServer_ContinueBoot {σ : Type} (U : Unlocker σ)
    (group : σ × List Call → Option GoError × (σ × List Call)) (st : σ × List Call) :
    ((group st).1 = some GoError.UnlockedAllVolumes →
      startServer (traced U) none none group st =
        ((U.ContinueBoot (group st).2.1).1,
         ((U.ContinueBoot (group st).2.1).2,
          (group st).2.2 ++ [Call.ContinueBoot (U.ContinueBoot (group st).2.1).1]))) ∧
    ((group st).1 ≠ some GoError.UnlockedAllVolumes →
      startServer (traced U) none none group st = group st) := by
  rcases hg : group st with ⟨err, s1, log⟩
  constructor
  · intro h
    simp only at h
    subst h
    simp [startServer, hg, traced_ContinueBoot]
  · intro h
    simp only at h
    simp [startServer, hg, h]

/-- C9 at concrete inputs: a group that ends with the sentinel, and one that ends with a
cancellation. -/
theorem startServer_ContinueBoot_witness :
    startServer (traced (fixedUnlocker VolumeMap.empty (fun _ _ => (false, none))
        (some (.other "exit status 1")))) none none
        (fun st => (some GoError.UnlockedAllVolumes, st)) ((), []) =
      (some (.other "exit status 1"), ((), [Call.ContinueBoot (some (.other "exit status 1"))])) ∧
    startServer (traced (fixedUnlocker VolumeMap.empty (fun _ _ => (false, none))
        (some (.other "exit status 1")))) none none
        (fun st => (some GoError.Canceled, st)) ((), []) =
      (some GoError.Canceled, ((), [])) :=
  ⟨(startServer_ContinueBoot (fixedUnlocker VolumeMap.empty (fun _ _ => (false, none))
      (some (.other "exit status 1"))) (fun st => (some GoError.UnlockedAllVolumes, st))
      ((), [])).1 rfl,
   (startServer_ContinueBoot (fixedUnlocker VolumeMap.empty (fun _ _ => (false, none))
      (some (.other "exit status 1"))) (fun st => (some GoError.Canceled, st))
      ((), [])).2 (by decide)⟩

/-! ## The completion channel under concurrent sessions -/

/-- C1, the code at the failing input: two sessions with a terminal are being served and the
backend reports no locked volume (here: no encrypted volume at all). Each session takes one
step: both obtain a set without locked volume from `Volumes()` and both execute
`close(successC)`; the second execution hits the closed channel and the process panics. -/
theorem runSSH_double_close :
    (runSchedule vt100 (fixedUnlocker VolumeMap.empty (fun _ _ => (false, none)) none)
        (fun _ _ => ("", none)) [0] (initialWorld () 2)).proc.closes = 1 ∧
    (runSchedule vt100 (fixedUnlocker VolumeMap.empty (fun _ _ => (false, none)) none)
        (fun _ _ => ("", none)) [0, 1] (initialWorld () 2)).proc.closes = 2 ∧
    (runSchedule vt100 (fixedUnlocker VolumeMap.empty (fun _ _ => (false, none)) none)
        (fun _ _ => ("", none)) [0, 1] (initialWorld () 2)).proc.panicked = true := by
  refine ⟨by decide, by decide, by decide⟩

/-! ## The session handler -/

/-- An iteration of `PasswordLoop` that reads an empty line without end-of-input. -/
theorem passwordStep_empty {σ : Type} (E : EscapeCodes) (U : Unlocker σ)
    (input : Nat → String × Option GoError) (p : Proc σ) (sess : Session)
    (hline : (input sess.reads).1 = "") (heof : (input sess.reads).2 ≠ some GoError.EOF) :
    passwordStep E U input p sess =
      (p, { sess with
            out := sess.out ++ [.readPassword "Password: ", invalidPassword E],
            reads := sess.reads + 1 }) := by
  rcases hin : input sess.reads with ⟨password, err⟩
  rw [hin] at hline heof
  simp only at hline heof
  subst hline
  simp [passwordStep, hin, heof]

/-- An iteration of `PasswordLoop` that reads a non-empty line without end-of-input. -/
theorem passwordStep_nonempty {σ : Type} (E : EscapeCodes) (U : Unlocker σ)
    (input : Nat → String × Option GoError) (p : Proc σ) (sess : Session)
    (hline : (input sess.reads).1 ≠ "") (heof : (input sess.reads).2 ≠ some GoError.EOF) :
    passwordStep E U input p sess =
      ({ p with unlocker := (EnterPasswordAllVolumes U (input sess.reads).1 p.unlocker).2 },
       match (EnterPasswordAllVolumes U (input sess.reads).1 p.unlocker).1 with
       | (_, some err) =>
         { sess with
           out := sess.out ++ [.readPassword "Password: ",
             .write (E.Red ++ "Error: " ++ err.Error ++ E.Reset ++ "\n")],
           reads := sess.reads + 1 }
       | (numUnlocked, none) =>
         if numUnlocked > 0 then
           { phase := .render,
             out := sess.out ++ [.readPassword "Password: ",
               .write (E.Green ++ "Unlocked " ++ toString numUnlocked ++ " volumes." ++
                 E.Reset ++ "\n")],
             reads := sess.reads + 1 }
         else
           { sess with
             out := sess.out ++ [.readPassword "Password: ", invalidPassword E],
             reads := sess.reads + 1 }) := by
  rcases hin : input sess.reads with ⟨password, err⟩
  rw [hin] at hline heof
  simp only at hline heof
  rcases hr : EnterPasswordAllVolumes U password p.unlocker with ⟨⟨n, e⟩, s1⟩
  cases e with
  | some e => simp [passwordStep, hin, heof, hline, hr]
  | none =>
    by_cases hn : n > 0
    · simp [passwordStep, hin, heof, hline, hr, hn]
    · simp [passwordStep, hin, heof, hline, hr, hn]

/-- An iteration of `PasswordLoop` that reads end-of-input. -/
theorem passwordStep_eof {σ : Type} (E : EscapeCodes) (U : Unlocker σ)
    (input : Nat → String × Option GoError) (p : Proc σ) (sess : Session)
    (heof : (input sess.reads).2 = some GoError.EOF) :
    passwordStep E U input p sess =
      (p, { phase := .returned,
            out := sess.out ++ [.readPassword "Password: ", .write "\n"],
            reads := sess.reads + 1 }) := by
  rcases hin : input sess.reads with ⟨password, err⟩
  rw [hin] at heof
  simp only at heof
  subst heof
  simp [passwordStep, hin]

/-- The counting loop of the handler: the names in iteration order, and the number of
locked volumes. -/
theorem countLocked_eq (entries : List (String × Bool)) (vs : List String) (n : Nat) :
    countLocked entries vs n =
      (vs ++ entries.map Prod.fst, n + (lockedVolumes entries).length) := by
  induction entries generalizing vs n with
  | nil => simp [countLocked, lockedVolumes]
  | cons hd tl ih =>
    obtain ⟨v, unlocked⟩ := hd
    cases unlocked with
    | false => simp [countLocked, ih, lockedVolumes]; omega
    | true => simp [countLocked, ih, lockedVolumes]

/-- The handler counts no locked volume exactly when every entry of the map is unlocked. -/
theorem countLocked_zero_iff (entries : List (String × Bool)) :
    (countLocked entries [] 0).2 = 0 ↔ ∀ entry ∈ entries, entry.2 = true := by
  rw [countLocked_eq]
  simp [lockedVolumes, List.filter_eq_nil_iff]

/-- C6: in the password prompt, when `ReadPassword` returns an empty line and no end-of-input,
the step writes the invalid-password message after the prompt and nothing else, leaves the
backend and its log of calls as they were (no `Volumes`, no `EnterPassword`), does not
execute `close(successC)`, and the session stays in the password prompt. -/
theorem handler_empty_password {σ : Type} (E : EscapeCodes) (U : Unlocker σ)
    (input : Nat → String × Option GoError) (p : Proc (σ × List Call)) (sess : Session)
    (hphase : sess.phase = .passwordLoop) (hline : (input sess.reads).1 = "")
    (heof : (input sess.reads).2 ≠ some GoError.EOF) :
    (handlerStep E (traced U) input p sess).1 = p ∧
    (handlerStep E (traced U) input p sess).1.unlocker.2 = p.unlocker.2 ∧
    (handlerStep E (traced U) input p sess).1.closes = p.closes ∧
    (handlerStep E (traced U) input p sess).2.out =
      sess.out ++ [.readPassword "Password: ", invalidPassword E] ∧
    (handlerStep E (traced U) input p sess).2.reads = sess.reads + 1 ∧
    (handlerStep E (traced U) input p sess).2.phase = .passwordLoop := by
  have h : handlerStep E (traced U) input p sess =
      passwordStep E (traced U) input p sess := by
    simp [handlerStep, hphase]
  rw [h, passwordStep_empty E (traced U) input p sess hline heof]
  simp [hphase]

/-- C6 at a concrete input: volume `A` locked, an empty line is read. -/
theorem handler_empty_password_witness :
    (handlerStep vt100 (traced (fixedUnlocker volumesLocked (fun _ _ => (true, none)) none))
      (fun _ => ("", none)) { unlocker := ((), []), closes := 0 }
      { phase := .passwordLoop, out := [], reads := 0 }).1.unlocker.2 = [] ∧
    (handlerStep vt100 (traced (fixedUnlocker volumesLocked (fun _ _ => (true, none)) none))
      (fun _ => ("", none)) { unlocker := ((), []), closes := 0 }
      { phase := .passwordLoop, out := [], reads := 0 }).2.phase = .passwordLoop :=
  ⟨(handler_empty_password vt100 (fixedUnlocker volumesLocked (fun _ _ => (true, none)) none)
      (fun _ => ("", none)) { unlocker := ((), []), closes := 0 }
      { phase := .passwordLoop, out := [], reads := 0 } rfl rfl (by decide)).2.1,
   (handler_empty_password vt100 (fixedUnlocker volumesLocked (fun _ _ => (true, none)) none)
      (fun _ => ("", none)) { unlocker := ((), []), closes := 0 }
      { phase := .passwordLoop, out := [], reads := 0 } rfl rfl (by decide)).2.2.2.2.2⟩

/-- C7: in the password prompt, when `ReadPassword` returns a non-empty password and no
end-of-input, the step calls `EnterPasswordAllVolumes` and what follows depends on its
result alone. With an error the error text is written and the session stays in the password
prompt; with count zero and no error the invalid-password message is written and the
session stays in the password prompt; with a count above zero and no error the count is
written and the session is back at the top of the outer loop, about to call `Volumes()`.
The session returns to rendering only in the last case, never ends in this step, and
`close(successC)` is not executed. -/
theorem handler_password_result {σ : Type} (E : EscapeCodes) (U : Unlocker σ)
    (input : Nat → String × Option GoError) (p : Proc σ) (sess : Session)
    (hphase : sess.phase = .passwordLoop) (hline : (input sess.reads).1 ≠ "")
    (heof : (input sess.reads).2 ≠ some GoError.EOF) :
    (handlerStep E U input p sess).1 =
      { unlocker := (EnterPasswordAllVolumes U (input sess.reads).1 p.unlocker).2,
        closes := p.closes } ∧
    (∀ err, (EnterPasswordAllVolumes U (input sess.reads).1 p.unlocker).1.2 = some err →
      (handlerStep E U input p sess).2 =
        { phase := .passwordLoop,
          out := sess.out ++ [.readPassword "Password: ",
            .write (E.Red ++ "Error: " ++ err.Error ++ E.Reset ++ "\n")],
          reads := sess.reads + 1 }) ∧
    ((EnterPasswordAllVolumes U (input sess.reads).1 p.unlocker).1 = (0, none) →
      (handlerStep E U input p sess).2 =
        { phase := .passwordLoop,
          out := sess.out ++ [.readPassword "Password: ", invalidPassword E],
          reads := sess.reads + 1 }) ∧
    ((EnterPasswordAllVolumes U (input sess.reads).1 p.unlocker).1.2 = none →
      0 < (EnterPasswordAllVolumes U (input sess.reads).1 p.unlocker).1.1 →
      (handlerStep E U input p sess).2 =
        { phase := .render,
          out := sess.out ++ [.readPassword "Password: ",
            .write (E.Green ++ "Unlocked " ++
              toString (EnterPasswordAllVolumes U (input sess.reads).1 p.unlocker).1.1 ++
              " volumes." ++ E.Reset ++ "\n")],
          reads := sess.reads + 1 }) ∧
    ((handlerStep E U input p sess).2.phase = .render ↔
      (EnterPasswordAllVolumes U (input sess.reads).1 p.unlocker).1.2 = none ∧
        0 < (EnterPasswordAllVolumes U (input sess.reads).1 p.unlocker).1.1) ∧
    (handlerStep E U input p sess).2.phase ≠ .returned := by
  have h : handlerStep E U input p sess = passwordStep E U input p sess := by
    simp [handlerStep, hphase]
  rw [h, passwordStep_nonempty E U input p sess hline heof]
  rcases hr : EnterPasswordAllVolumes U (input sess.reads).1 p.unlocker with ⟨⟨n, e⟩, s1⟩
  obtain ⟨phase, out, reads⟩ := sess
  simp only at hphase
  subst hphase
  cases e with
  | some e => simp
  | none =>
    by_cases hn : n > 0
    · have hn0 : n ≠ 0 := by omega
      simp [hn, hn0]
    · have hn0 : n = 0 := by omega
      simp [hn0]

/-- C7 at a concrete input: volume `A` locked and `B` unlocked, the password read is
accepted by the backend, so the session returns to rendering. -/
theorem handler_password_result_witness :
    (handlerStep vt100 (fixedUnlocker volumesAB (fun _ _ => (true, none)) none)
      (fun _ => ("hunter2", none)) { unlocker := (), closes := 0 }
      { phase := .passwordLoop, out := [], reads := 0 }).2.phase = .render :=
  (handler_password_result vt100 (fixedUnlocker volumesAB (fun _ _ => (true, none)) none)
      (fun _ => ("hunter2", none)) { unlocker := (), closes := 0 }
      { phase := .passwordLoop, out := [], reads := 0 } rfl (by decide) (by decide)).2.2.2.2.1.mpr
    ⟨by decide, by decide⟩

/-- C8: in the rendering step, when `Volumes()` returns a set without error, the session
executes `close(successC)` if and only if no volume of the set is locked (so also for the
empty set); it then writes the all-unlocked confirmation, reads no password, makes no call
on the backend besides `Volumes()`, and returns. With a locked volume in the set it does
not execute `close(successC)` and goes on to the password prompt. When `Volumes()` returns
an error it writes the error and returns without executing `close(successC)`. -/
theorem handler_render {σ : Type} (E : EscapeCodes) (U : Unlocker σ)
    (input : Nat → String × Option GoError) (p : Proc (σ × List Call)) (sess : Session)
    (hphase : sess.phase = .render) :
    (handlerStep E (traced U) input p sess).1.unlocker =
      ((U.Volumes p.unlocker.1).2,
       p.unlocker.2 ++
        [Call.Volumes (U.Volumes p.unlocker.1).1.1.entries (U.Volumes p.unlocker.1).1.2]) ∧
    (handlerStep E (traced U) input p sess).2.reads = sess.reads ∧
    (∀ err, (U.Volumes p.unlocker.1).1.2 = some err →
      (handlerStep E (traced U) input p sess).1.closes = p.closes ∧
      (handlerStep E (traced U) input p sess).2.phase = .returned ∧
      (handlerStep E (traced U) input p sess).2.out = sess.out ++
        [.write ("Error getting encrypted volumes: " ++ err.Error ++ "\n")]) ∧
    ((U.Volumes p.unlocker.1).1.2 = none →
      (∀ entry ∈ (U.Volumes p.unlocker.1).1.1.entries, entry.2 = true) →
      (handlerStep E (traced U) input p sess).1.closes = p.closes + 1 ∧
      (handlerStep E (traced U) input p sess).2.phase = .returned ∧
      (handlerStep E (traced U) input p sess).2.out = sess.out ++ [allUnlocked E]) ∧
    ((U.Volumes p.unlocker.1).1.2 = none →
      (¬ ∀ entry ∈ (U.Volumes p.unlocker.1).1.1.entries, entry.2 = true) →
      (handlerStep E (traced U) input p sess).1.closes = p.closes ∧
      (handlerStep E (traced U) input p sess).2.phase = .passwordLoop) ∧
    ((handlerStep E (traced U) input p sess).1.closes = p.closes + 1 ↔
      (U.Volumes p.unlocker.1).1.2 = none ∧
        ∀ entry ∈ (U.Volumes p.unlocker.1).1.1.entries, entry.2 = true) := by
  have h : handlerStep E (traced U) input p sess = renderStep E (traced U) p sess := by
    simp [handlerStep, hphase]
  rw [h]
  obtain ⟨⟨s, log⟩, closes⟩ := p
  rcases hV : U.Volumes s with ⟨⟨volumes, err⟩, s1⟩
  cases err with
  | some e => simp [renderStep, traced_Volumes, hV]
  | none =>
    have hz := countLocked_zero_iff volumes.entries
    rcases hc : countLocked volumes.entries [] 0 with ⟨vs, numLocked⟩
    rw [hc] at hz
    simp only at hz
    by_cases hall : ∀ entry ∈ volumes.entries, entry.2 = true
    · have hn : numLocked = 0 := hz.mpr hall
      subst hn
      simp [renderStep, traced_Volumes, hV, hc, closeSuccessC]
      intro a hmem
      exact absurd (hall (a, false) hmem) (by simp)
    · have hn : numLocked ≠ 0 := fun h0 => hall (hz.mp h0)
      simp [renderStep, traced_Volumes, hV, hc, hn]
      simpa using hall

/-- C8 at concrete inputs: the empty set ends the session with `close(successC)` executed
once; a set with a locked volume leads to the password prompt. -/
theorem handler_render_witness :
    (handlerStep vt100 (traced (fixedUnlocker VolumeMap.empty (fun _ _ => (true, none)) none))
      (fun _ => ("", none)) { unlocker := ((), []), closes := 0 }
      (handlerStart true)).1.closes = 1 ∧
    (handlerStep vt100 (traced (fixedUnlocker volumesAB (fun _ _ => (true, none)) none))
      (fun _ => ("", none)) { unlocker := ((), []), closes := 0 }
      (handlerStart true)).2.phase = .passwordLoop :=
  ⟨((handler_render vt100 (fixedUnlocker VolumeMap.empty (fun _ _ => (true, none)) none)
      (fun _ => ("", none)) { unlocker := ((), []), closes := 0 }
      (handlerStart true) rfl).2.2.2.1 rfl (by decide)).1,
   ((handler_render vt100 (fixedUnlocker volumesAB (fun _ _ => (true, none)) none)
      (fun _ => ("", none)) { unlocker := ((), []), closes := 0 }
      (handlerStart true) rfl).2.2.2.2.1 rfl (by decide)).2⟩

/-- An iteration of `PasswordLoop` returns from the handler exactly on end-of-input. -/
theorem passwordStep_returned_iff {σ : Type} (E : EscapeCodes) (U : Unlocker σ)
    (input : Nat → String × Option GoError) (p : Proc σ) (sess : Session)
    (hphase : sess.phase = .passwordLoop) :
    (passwordStep E U input p sess).2.phase = .returned ↔
      (input sess.reads).2 = some GoError.EOF := by
  by_cases heof : (input sess.reads).2 = some GoError.EOF
  · rw [passwordStep_eof E U input p sess heof]
    simp [heof]
  · by_cases hline : (input sess.reads).1 = ""
    · rw [passwordStep_empty E U input p sess hline heof]
      simp [heof, hphase]
    · rw [passwordStep_nonempty E U input p sess hline heof]
      rcases hr : EnterPasswordAllVolumes U (input sess.reads).1 p.unlocker with ⟨⟨n, e⟩, s1⟩
      cases e with
      | some e => simp [heof, hphase]
      | none =>
        by_cases hn : n > 0
        · simp [heof, hn]
        · simp [heof, hn, hphase]

/-- A session whose every password read fails with an error other than end-of-input and an
empty line is in the password prompt after any number of steps. -/
theorem handlerSteps_failing_reads {σ : Type} (E : EscapeCodes) (U : Unlocker σ)
    (input : Nat → String × Option GoError) (p : Proc σ)
    (hin : ∀ n, ∃ err, input n = ("", some err) ∧ err ≠ GoError.EOF) :
    ∀ (k : Nat) (sess : Session), sess.phase = .passwordLoop →
      (handlerSteps E U input k (p, sess)).1 = p ∧
      (handlerSteps E U input k (p, sess)).2.phase = .passwordLoop ∧
      (handlerSteps E U input k (p, sess)).2.reads = sess.reads + k := by
  intro k
  induction k with
  | zero => intro sess hphase; simp [handlerSteps, hphase]
  | succ k ih =>
    intro sess hphase
    obtain ⟨err, hread, herr⟩ := hin sess.reads
    have hstep : handlerStep E U input p sess =
        (p, { sess with
              out := sess.out ++ [.readPassword "Password: ", invalidPassword E],
              reads := sess.reads + 1 }) := by
      have h : handlerStep E U input p sess = passwordStep E U input p sess := by
        simp [handlerStep, hphase]
      rw [h]
      exact passwordStep_empty E U input p sess (by rw [hread])
        (by rw [hread]; simpa using herr)
    simp only [handlerSteps, hstep]
    obtain ⟨h1, h2, h3⟩ := ih
      { sess with
        out := sess.out ++ [.readPassword "Password: ", invalidPassword E],
        reads := sess.reads + 1 } hphase
    refine ⟨h1, h2, ?_⟩
    rw [h3]
    simp only
    omega

/-- C10: in the password loop the handler returns only on `io.EOF`. When `ReadPassword`
returns an empty line with an error other than `io.EOF`, the step writes the
invalid-password message, leaves the backend and its log of calls untouched, and the
session stays in the password prompt; so when every read of the session fails that way,
the session is in the password prompt after any number of steps, having made one read per
step and no call on the backend. -/
theorem handler_only_eof_ends {σ : Type} (E : EscapeCodes) (U : Unlocker σ)
    (input : Nat → String × Option GoError) (p : Proc (σ × List Call)) (sess : Session)
    (hphase : sess.phase = .passwordLoop) :
    ((handlerStep E (traced U) input p sess).2.phase = .returned ↔
      (input sess.reads).2 = some GoError.EOF) ∧
    (∀ err, input sess.reads = ("", some err) → err ≠ GoError.EOF →
      handlerStep E (traced U) input p sess =
        (p, { phase := .passwordLoop,
              out := sess.out ++ [.readPassword "Password: ", invalidPassword E],
              reads := sess.reads + 1 })) ∧
    ((∀ n, ∃ err, input n = ("", some err) ∧ err ≠ GoError.EOF) →
      ∀ k, (handlerSteps E (traced U) input k (p, sess)).1 = p ∧
        (handlerSteps E (traced U) input k (p, sess)).2.phase = .passwordLoop ∧
        (handlerSteps E (traced U) input k (p, sess)).2.reads = sess.reads + k) := by
  have h : handlerStep E (traced U) input p sess =
      passwordStep E (traced U) input p sess := by
    simp [handlerStep, hphase]
  refine ⟨?_, ?_, ?_⟩
  · rw [h]
    exact passwordStep_returned_iff E (traced U) input p sess hphase
  · intro err hread herr
    rw [h, passwordStep_empty E (traced U) input p sess (by rw [hread])
      (by rw [hread]; simpa using herr)]
    simp [← hphase]
  · intro hin k
    exact handlerSteps_failing_reads E (traced U) input p hin k sess hphase

/-- C10 at a concrete input: every read fails with a connection error; after 5 steps the
session is still in the password prompt and the backend was never called. -/
theorem handler_only_eof_ends_witness :
    (handlerSteps vt100 (traced (fixedUnlocker volumesLocked (fun _ _ => (true, none)) none))
      (fun _ => ("", some (.other "read: connection reset by peer")))
      5 ({ unlocker := ((), []), closes := 0 },
        { phase := .passwordLoop, out := [], reads := 0 })).1 =
      { unlocker := ((), []), closes := 0 } ∧
    (handlerSteps vt100 (traced (fixedUnlocker volumesLocked (fun _ _ => (true, none)) none))
      (fun _ => ("", some (.other "read: connection reset by peer")))
      5 ({ unlocker := ((), []), closes := 0 },
        { phase := .passwordLoop, out := [], reads := 0 })).2.phase = .passwordLoop :=
  ⟨((handler_only_eof_ends vt100
      (fixedUnlocker volumesLocked (fun _ _ => (true, none)) none)
      (fun _ => ("", some (.other "read: connection reset by peer")))
      { unlocker := ((), []), closes := 0 }
      { phase := .passwordLoop, out := [], reads := 0 } rfl).2.2
      (fun _ => ⟨.other "read: connection reset by peer", rfl, by decide⟩) 5).1,
   ((handler_only_eof_ends vt100
      (fixedUnlocker volumesLocked (fun _ _ => (true, none)) none)
      (fun _ => ("", some (.other "read: connection reset by peer")))
      { unlocker := ((), []), closes := 0 }
      { phase := .passwordLoop, out := [], reads := 0 } rfl).2.2
      (fun _ => ⟨.other "read: connection reset by peer", rfl, by decide⟩) 5).2.1⟩

/-- One step of a handler either leaves `successC` alone or closes it from the rendering
step and returns. -/
theorem handlerStep_closes {σ : Type} (E : EscapeCodes) (U : Unlocker σ)
    (input : Nat → String × Option GoError) (p : Proc σ) (sess : Session) :
    (handlerStep E U input p sess).1.closes = p.closes ∨
      ((handlerStep E U input p sess).1.closes = p.closes + 1 ∧
        (handlerStep E U input p sess).2.phase = .returned) := by
  obtain ⟨phase, out, reads⟩ := sess
  cases phase with
  | returned => simp [handlerStep]
  | render =>
    rcases hV : U.Volumes p.unlocker with ⟨⟨volumes, err⟩, s1⟩
    cases err with
    | some e => simp [handlerStep, renderStep, hV]
    | none =>
      rcases hc : countLocked volumes.entries [] 0 with ⟨vs, numLocked⟩
      by_cases hn : numLocked = 0
      · simp [handlerStep, renderStep, hV, hc, hn, closeSuccessC]
      · simp [handlerStep, renderStep, hV, hc, hn]
  | passwordLoop =>
    by_cases heof : (input reads).2 = some GoError.EOF
    · simp [handlerStep, passwordStep_eof E U input p ⟨.passwordLoop, out, reads⟩ heof]
    · by_cases hline : (input reads).1 = ""
      · simp [handlerStep, passwordStep_empty E U input p ⟨.passwordLoop, out, reads⟩ hline heof]
      · simp [handlerStep,
          passwordStep_nonempty E U input p ⟨.passwordLoop, out, reads⟩ hline heof]

/-- A single session executes `close(successC)` at most once, and has returned when it
did. -/
theorem single_session_closes_once {σ : Type} (E : EscapeCodes) (U : Unlocker σ)
    (input : Nat → String × Option GoError) :
    ∀ (k : Nat) (p : Proc σ) (sess : Session),
      p.closes = 0 ∨ (p.closes = 1 ∧ sess.phase = .returned) →
      (handlerSteps E U input k (p, sess)).1.closes = 0 ∨
        ((handlerSteps E U input k (p, sess)).1.closes = 1 ∧
          (handlerSteps E U input k (p, sess)).2.phase = .returned) := by
  intro k
  induction k with
  | zero => intro p sess h; simpa [handlerSteps] using h
  | succ k ih =>
    intro p sess h
    have hinv : (handlerStep E U input p sess).1.closes = 0 ∨
        ((handlerStep E U input p sess).1.closes = 1 ∧
          (handlerStep E U input p sess).2.phase = .returned) := by
      rcases h with h0 | ⟨h1, hret⟩
      · rcases handlerStep_closes E U input p sess with hs | ⟨hs, hp⟩
        · exact Or.inl (by rw [hs, h0])
        · exact Or.inr ⟨by rw [hs, h0], hp⟩
      · have hstep : handlerStep E U input p sess = (p, sess) := by
          simp [handlerStep, hret]
        rw [hstep]
        exact Or.inr ⟨h1, hret⟩
    exact ih _ _ hinv

end TailscaleRemoteUnlock
